import Mathlib

/-!
Shallow embedding of the event-loop orchestrator (`Watcher::start` in
`src-tauri/src/watcher/mod.rs`) and of the global-git-config helpers
(`App::git_get_global_config`, `App::git_set_global_config` in
`crates/gitbutler-tauri/src/app.rs`) of the gitbutler repository,
together with proofs of the specification claims about them.

The watcher loop is embedded as a state machine: the loop's local state
is a `WatcherState` (the contents of the shared event channel, the
sequence of events already passed to `Handler::handle`, the log, the
number of `Dispatcher::stop` invocations, and whether the loop has
broken out of its `select!` loop).  One iteration of the loop body is
`step`, driven by an `Action` that records which arm of the `select!`
resolved (or that the dispatcher task pushed / failed concurrently).
The handler is a parameter `handle : Ev → Except Er (List Ev)`,
mirroring `Handler::handle(event) -> Result<Vec<Event>>`.
-/

namespace Watcher

/-- The two control states of the orchestrator loop: it is `running`
until a value is received on the stop channel, after which it is
`stopped` (terminal — the Rust loop executes `break`). -/
inductive LoopStatus where
  | running
  | stopped
  deriving DecidableEq, Repr

/-- One log line emitted by `Watcher::start`, one constructor per
`log::error!` call site in the source. -/
inductive LogEntry where
  /-- `failed to start dispatcher` (inside the spawned task). -/
  | startDispatcherFailed
  /-- `failed to post event` (re-publication send failed). -/
  | postEventFailed
  /-- `failed to handle event` (handler returned `Err`). -/
  | handleEventFailed
  /-- `failed to receive event` (`recv(events_rx)` returned `Err`). -/
  | receiveEventFailed
  /-- `failed to stop dispatcher` (`Dispatcher::stop` returned `Err`). -/
  | stopDispatcherFailed
  deriving DecidableEq, Repr

/-- The state of one `Watcher::start` invocation, for event type `Ev`.
`queue` is the FIFO contents of the unbounded channel created by
`unbounded()` at the top of `start` — the channel the loop receives from
(`events_rx`) and re-publishes to (`events_tx`).  `handled` is the
sequence of events passed to `Handler::handle`, in invocation order.
`dispatcherStopCalls` counts invocations of `Dispatcher::stop`. -/
structure WatcherState (Ev : Type) where
  queue : List Ev
  handled : List Ev
  log : List LogEntry
  dispatcherStopCalls : Nat
  status : LoopStatus
  deriving DecidableEq, Repr

/-- The initial state of `Watcher::start`: the freshly created channel is
empty, nothing has been handled or logged, `Dispatcher::stop` has not
been called, and the loop is entered in the running state. -/
def initialState (Ev : Type) : WatcherState Ev :=
  { queue := [], handled := [], log := [], dispatcherStopCalls := 0,
    status := LoopStatus.running }

/-- One occurrence visible to the loop: either the concurrent dispatcher
task acts, or one arm of the loop's `select!` resolves. -/
inductive Action (Ev : Type) where
  /-- The spawned dispatcher task pushes an observed event onto the
  shared channel (`etx.send` inside `dispatcher.start`). -/
  | dispatch (e : Ev)
  /-- The dispatcher task's `dispatcher.start(etx).await` returned `Err`;
  the task logs `failed to start dispatcher` and exits. -/
  | dispatcherStartFail
  /-- The `recv(events_rx)` arm resolves with `Ok(event)`: the loop pops
  the head of the channel and runs the loop body on it. -/
  | deliverEvent
  /-- The `recv(events_rx)` arm resolves with `Err(e)`: the loop logs
  `failed to receive event` and continues. -/
  | recvFail
  /-- The `recv(self.stop)` arm resolves: `recvOk` records whether the
  receive yielded `Ok(())` (a stop value was sent) or `Err(RecvError)`
  (the stop sender was dropped) — the arm's pattern is `_`, so the loop
  body ignores this distinction.  The loop calls `Dispatcher::stop`
  (whose result is `stopErr = true` when it returned `Err`), logs on
  error, and breaks. -/
  | stopSignal (recvOk : Bool) (stopErr : Bool)
  deriving DecidableEq, Repr

/-- One step of the system.  When the loop has already broken out
(`stopped`), `start` has returned: the `select!` no longer runs and the
channel's receiver has been dropped, so no action changes the loop's
state.  While `running`, each `Action` is the direct transcription of
the corresponding branch of the `select!` body in `Watcher::start`:
on `Ok(event)` the handler runs and, on success, every returned event is
sent in order onto the same channel; on handler error the loop logs
`failed to handle event` and continues; on receive error it logs
`failed to receive event` and continues; on the stop signal it calls
`Dispatcher::stop`, logs if that errored, and breaks. -/
def step {Ev Er : Type} (handle : Ev → Except Er (List Ev))
    (s : WatcherState Ev) : Action Ev → WatcherState Ev
  | Action.dispatch e =>
      match s.status with
      | LoopStatus.stopped => s
      | LoopStatus.running => { s with queue := s.queue ++ [e] }
  | Action.dispatcherStartFail =>
      match s.status with
      | LoopStatus.stopped => s
      | LoopStatus.running =>
          { s with log := s.log ++ [LogEntry.startDispatcherFailed] }
  | Action.deliverEvent =>
      match s.status with
      | LoopStatus.stopped => s
      | LoopStatus.running =>
          match s.queue with
          | [] => s
          | e :: rest =>
              match handle e with
              | Except.ok events =>
                  { s with queue := rest ++ events,
                           handled := s.handled ++ [e] }
              | Except.error _ =>
                  { s with queue := rest,
                           handled := s.handled ++ [e],
                           log := s.log ++ [LogEntry.handleEventFailed] }
  | Action.recvFail =>
      match s.status with
      | LoopStatus.stopped => s
      | LoopStatus.running =>
          { s with log := s.log ++ [LogEntry.receiveEventFailed] }
  | Action.stopSignal _ stopErr =>
      match s.status with
      | LoopStatus.stopped => s
      | LoopStatus.running =>
          { s with status := LoopStatus.stopped,
                   dispatcherStopCalls := s.dispatcherStopCalls + 1,
                   log := if stopErr
                          then s.log ++ [LogEntry.stopDispatcherFailed]
                          else s.log }

/-- Run the loop over a whole sequence of actions. -/
def run {Ev Er : Type} (handle : Ev → Except Er (List Ev))
    (s : WatcherState Ev) : List (Action Ev) → WatcherState Ev
  | [] => s
  | a :: acts => run handle (step handle s a) acts

/-- Whether an action is the stop-channel arm resolving (with a value
or by disconnection). -/
def Action.isStop {Ev : Type} : Action Ev → Bool
  | Action.stopSignal _ _ => true
  | _ => false

/-- Whether an action is a value actually being received on the stop
channel (`recv(self.stop)` yielding `Ok(())`). -/
def Action.isStopValue {Ev : Type} : Action Ev → Bool
  | Action.stopSignal recvOk _ => recvOk
  | _ => false

/-- `Watcher::start` as a whole: it runs the loop over the actions and,
once the loop has broken out, falls through to the trailing `Ok(())`.
The returned value is `some r` when the loop has terminated (and then
`r` is what the Rust function returns), `none` while it still blocks.
The error type `Er2` stands for `anyhow::Error`: no statement in `start`
ever produces one. -/
def start {Ev Er : Type} (Er2 : Type) (handle : Ev → Except Er (List Ev))
    (acts : List (Action Ev)) : WatcherState Ev × Option (Except Er2 Unit) :=
  let f := run handle (initialState Ev) acts
  (f, match f.status with
      | LoopStatus.stopped => some (Except.ok ())
      | LoopStatus.running => none)

end Watcher

namespace App

/-- Error codes of `git2::Error` as far as `App` inspects them: the code
`git2::ErrorCode::NotFound` is distinguished in
`git_get_global_config`; every other code is abstracted as
`other n`. -/
inductive GitErrorCode where
  | notFound
  | other (n : Nat)
  deriving DecidableEq, Repr

/-- A `git2::Error`, reduced to the only field `App` reads: its code. -/
structure GitError where
  code : GitErrorCode
  deriving DecidableEq, Repr

/-- The global `git2::Config` object, abstracted to the two operations
`App` invokes on it: `get_string` and `set_str`.  `set_str`'s side
effect on the external store is irrelevant to the claims; only its
success or failure is kept. -/
structure Config where
  get_string : String → Except GitError String
  set_str : String → String → Except GitError Unit

/-- `App::git_set_global_config`: open the default config (`?`
propagates the failure), `set_str(key, value)?`, then return
`Ok(value.to_string())`.  `open_default` is the outcome of
`git2::Config::open_default()`. -/
def git_set_global_config (open_default : Except GitError Config)
    (key value : String) : Except GitError String :=
  match open_default with
  | Except.error e => Except.error e
  | Except.ok config =>
      match config.set_str key value with
      | Except.error e => Except.error e
      | Except.ok _ => Except.ok value

/-- `App::git_get_global_config`: open the default config (`?`
propagates the failure), then match on `config.get_string(key)`:
`Ok(value)` becomes `Ok(Some(value))`; an error with code `NotFound`
becomes `Ok(None)`; any other error is propagated as `Err`. -/
def git_get_global_config (open_default : Except GitError Config)
    (key : String) : Except GitError (Option String) :=
  match open_default with
  | Except.error e => Except.error e
  | Except.ok config =>
      match config.get_string key with
      | Except.ok value => Except.ok (some value)
      | Except.error e =>
          if e.code = GitErrorCode.notFound
          then Except.ok none
          else Except.error e

end App

namespace Watcher

/-- The log-independent observable part of a loop state: channel
contents, handled sequence, `Dispatcher::stop` call count and control
status.  The loop body never reads the log, so behaviour is determined
by this projection. -/
def observable {Ev : Type} (s : WatcherState Ev) :
    List Ev × List Ev × Nat × LoopStatus :=
  (s.queue, s.handled, s.dispatcherStopCalls, s.status)

/-- A concrete handler over `Nat` events, used to exercise the model on
closed inputs: event `0` fails, events `1 ≤ n < 5` succeed and
republish one derived event `10 * n`, larger events succeed with no
follow-up. -/
def exHandle : Nat → Except Unit (List Nat) :=
  fun n =>
    if n = 0 then Except.error ()
    else if n < 5 then Except.ok [10 * n]
    else Except.ok []

end Watcher

namespace App

/-- A concrete configuration used to exercise the model on closed
inputs: only the key `user.name` is present; every other lookup fails
with `NotFound`; writes always succeed. -/
def exConfig : Config :=
  { get_string := fun k =>
      if k = "user.name" then Except.ok "alice"
      else Except.error { code := GitErrorCode.notFound },
    set_str := fun _ _ => Except.ok () }

end App

namespace Watcher

variable {Ev Er : Type}

/-- Once the loop has broken out of `select!`, no action changes its
state. -/
theorem step_stopped (handle : Ev → Except Er (List Ev))
    (s : WatcherState Ev) (a : Action Ev)
    (h : s.status = LoopStatus.stopped) : step handle s a = s := by
  cases a <;> simp [step, h]

/-- Once stopped, a whole action sequence changes nothing. -/
theorem run_stopped (handle : Ev → Except Er (List Ev))
    (s : WatcherState Ev) (acts : List (Action Ev))
    (h : s.status = LoopStatus.stopped) : run handle s acts = s := by
  induction acts generalizing s with
  | nil => rfl
  | cons a acts ih =>
      rw [run, step_stopped handle s a h]
      exact ih s h

/-- An action that is not the stop arm never changes the control status
nor the `Dispatcher::stop` call count. -/
theorem step_not_stop_frame (handle : Ev → Except Er (List Ev))
    (s : WatcherState Ev) (a : Action Ev) (ha : a.isStop = false) :
    (step handle s a).status = s.status ∧
    (step handle s a).dispatcherStopCalls = s.dispatcherStopCalls := by
  obtain ⟨q, hd, lg, c, st⟩ := s
  cases st with
  | stopped => rw [step_stopped handle _ a rfl]; exact ⟨rfl, rfl⟩
  | running =>
      cases a with
      | dispatch e => simp [step]
      | dispatcherStartFail => simp [step]
      | recvFail => simp [step]
      | stopSignal rv b => simp [Action.isStop] at ha
      | deliverEvent =>
          cases q with
          | nil => simp [step]
          | cons e rest =>
              cases hh : handle e <;> simp [step, hh]

/-- The stop arm, taken while running, breaks the loop and calls
`Dispatcher::stop` once. -/
theorem step_stop_running (handle : Ev → Except Er (List Ev))
    (s : WatcherState Ev) (rv b : Bool)
    (h : s.status = LoopStatus.running) :
    step handle s (Action.stopSignal rv b) =
      { s with status := LoopStatus.stopped,
               dispatcherStopCalls := s.dispatcherStopCalls + 1,
               log := if b then s.log ++ [LogEntry.stopDispatcherFailed]
                      else s.log } := by
  simp [step, h]

/-- The loop run from a running state ends stopped exactly when the
action sequence contains a stop-arm resolution. -/
theorem run_status_iff (handle : Ev → Except Er (List Ev))
    (s : WatcherState Ev) (acts : List (Action Ev))
    (h : s.status = LoopStatus.running) :
    ((run handle s acts).status = LoopStatus.stopped ↔
      acts.any Action.isStop = true) := by
  induction acts generalizing s with
  | nil => simp [run, h]
  | cons a acts ih =>
      cases ha : a.isStop with
      | true =>
          cases a with
          | stopSignal rv b =>
              rw [run, step_stop_running handle s rv b h,
                  run_stopped handle _ acts rfl]
              simp [Action.isStop]
          | dispatch e => simp [Action.isStop] at ha
          | dispatcherStartFail => simp [Action.isStop] at ha
          | recvFail => simp [Action.isStop] at ha
          | deliverEvent => simp [Action.isStop] at ha
      | false =>
          rw [run]
          have hstat := (step_not_stop_frame handle s a ha).1
          rw [ih (step handle s a) (hstat.trans h)]
          simp [ha]

/-- `Dispatcher::stop` is invoked exactly once over a run from a running
state containing a stop-arm resolution, and never otherwise. -/
theorem run_calls (handle : Ev → Except Er (List Ev))
    (s : WatcherState Ev) (acts : List (Action Ev))
    (h : s.status = LoopStatus.running) :
    (run handle s acts).dispatcherStopCalls =
      s.dispatcherStopCalls +
        (if acts.any Action.isStop = true then 1 else 0) := by
  induction acts generalizing s with
  | nil => simp [run]
  | cons a acts ih =>
      cases ha : a.isStop with
      | true =>
          cases a with
          | stopSignal rv b =>
              rw [run, step_stop_running handle s rv b h,
                  run_stopped handle _ acts rfl]
              simp [Action.isStop]
          | dispatch e => simp [Action.isStop] at ha
          | dispatcherStartFail => simp [Action.isStop] at ha
          | recvFail => simp [Action.isStop] at ha
          | deliverEvent => simp [Action.isStop] at ha
      | false =>
          rw [run]
          have hfr := step_not_stop_frame handle s a ha
          rw [ih (step handle s a) (hfr.1.trans h), hfr.2]
          simp [ha]

/-- One step from a state whose log is replaced leaves the rest of the
state as before, with some log. -/
theorem step_log_frame (handle : Ev → Except Er (List Ev))
    (s : WatcherState Ev) (l : List LogEntry) (a : Action Ev) :
    ∃ l2, step handle { s with log := l } a =
      { step handle s a with log := l2 } := by
  obtain ⟨q, hd, lg, c, st⟩ := s
  cases st with
  | stopped =>
      refine ⟨l, ?_⟩
      rw [step_stopped handle _ a rfl, step_stopped handle _ a rfl]
  | running =>
      cases a with
      | dispatch e => exact ⟨l, by simp [step]⟩
      | dispatcherStartFail =>
          exact ⟨l ++ [LogEntry.startDispatcherFailed], by simp [step]⟩
      | recvFail =>
          exact ⟨l ++ [LogEntry.receiveEventFailed], by simp [step]⟩
      | stopSignal rv b =>
          cases b with
          | true =>
              exact ⟨l ++ [LogEntry.stopDispatcherFailed], by simp [step]⟩
          | false => exact ⟨l, by simp [step]⟩
      | deliverEvent =>
          cases q with
          | nil => exact ⟨l, by simp [step]⟩
          | cons e rest =>
              cases hh : handle e with
              | ok evs => exact ⟨l, by simp [step, hh]⟩
              | error err =>
                  exact ⟨l ++ [LogEntry.handleEventFailed],
                    by simp [step, hh]⟩

/-- A whole run from a state whose log is replaced leaves the rest of
the state as before, with some log: the loop never reads its log. -/
theorem run_log_frame (handle : Ev → Except Er (List Ev))
    (acts : List (Action Ev)) (s : WatcherState Ev) (l : List LogEntry) :
    ∃ l2, run handle { s with log := l } acts =
      { run handle s acts with log := l2 } := by
  induction acts generalizing s l with
  | nil => exact ⟨l, rfl⟩
  | cons a acts ih =>
      obtain ⟨l2, hl2⟩ := step_log_frame handle s l a
      rw [run, hl2]
      exact ih (step handle s a) l2

/-- Claim C1 — failure isolation: when the loop is running and
`Handler::handle` fails on the event at the head of the channel, the
loop body logs `failed to handle event`, drops the event (the channel
afterwards holds exactly the remaining events: nothing is re-published
for the failed event and it is not requeued), does not terminate (still
`running`, `Dispatcher::stop` not called), and the next successfully
received event is handled normally. -/
theorem failure_isolation {Ev Er : Type}
    (handle : Ev → Except Er (List Ev)) (s : WatcherState Ev)
    (e : Ev) (err : Er) (rest : List Ev)
    (hrun : s.status = LoopStatus.running)
    (hq : s.queue = e :: rest)
    (hfail : handle e = Except.error err) :
    step handle s Action.deliverEvent =
      { s with queue := rest, handled := s.handled ++ [e],
               log := s.log ++ [LogEntry.handleEventFailed] } ∧
    (step handle s Action.deliverEvent).status = LoopStatus.running ∧
    (step handle s Action.deliverEvent).dispatcherStopCalls =
      s.dispatcherStopCalls ∧
    (∀ e2 rest2 evs2, rest = e2 :: rest2 → handle e2 = Except.ok evs2 →
      step handle (step handle s Action.deliverEvent) Action.deliverEvent =
        { s with queue := rest2 ++ evs2, handled := s.handled ++ [e, e2],
                 log := s.log ++ [LogEntry.handleEventFailed] }) := by
  have h1 : step handle s Action.deliverEvent =
      { s with queue := rest, handled := s.handled ++ [e],
               log := s.log ++ [LogEntry.handleEventFailed] } := by
    simp [step, hrun, hq, hfail]
  refine ⟨h1, by rw [h1]; exact hrun, by rw [h1], ?_⟩
  intro e2 rest2 evs2 hrest hok
  rw [h1]
  simp [step, hrest, hok, hrun]

/-- Claim C1 witness: with the concrete handler, event `0` fails; from
the state with queue `[0, 3]` the loop drops `0`, logs the failure,
stays running, and then handles `3` normally. -/
theorem failure_isolation_witness :
    step exHandle
      { queue := [0, 3], handled := [], log := [], dispatcherStopCalls := 0,
        status := LoopStatus.running } Action.deliverEvent =
      { queue := [3], handled := [0], log := [LogEntry.handleEventFailed],
        dispatcherStopCalls := 0, status := LoopStatus.running } :=
  (failure_isolation exHandle
    { queue := [0, 3], handled := [], log := [], dispatcherStopCalls := 0,
      status := LoopStatus.running } 0 () [3] rfl rfl rfl).1

/-- Claim C2 — re-publication: when the loop is running and
`Handler::handle` succeeds on the event at the head of the channel with
follow-up events `evs`, the loop body sends every event of `evs`, in
order, onto the same channel it consumes (the post-state queue is the
remaining events followed by `evs`), all within the same loop body
execution, i.e. before the next `select!`. -/
theorem republish_on_success {Ev Er : Type}
    (handle : Ev → Except Er (List Ev)) (s : WatcherState Ev)
    (e : Ev) (evs rest : List Ev)
    (hrun : s.status = LoopStatus.running)
    (hq : s.queue = e :: rest)
    (hok : handle e = Except.ok evs) :
    step handle s Action.deliverEvent =
      { s with queue := rest ++ evs, handled := s.handled ++ [e] } := by
  simp [step, hrun, hq, hok]

/-- Claim C2 witness: with the concrete handler, event `2` succeeds with
follow-up `[20]`, which lands at the back of the same queue. -/
theorem republish_on_success_witness :
    step exHandle
      { queue := [2, 7], handled := [], log := [], dispatcherStopCalls := 0,
        status := LoopStatus.running } Action.deliverEvent =
      { queue := [7, 20], handled := [2], log := [],
        dispatcherStopCalls := 0, status := LoopStatus.running } :=
  republish_on_success exHandle
    { queue := [2, 7], handled := [], log := [], dispatcherStopCalls := 0,
      status := LoopStatus.running } 2 [20] [7] rfl rfl rfl

/-- Claim C3 as stated is refuted: `Watcher::start` does not return
only when a value is received on the stop channel.  The stop arm of
the `select!` is `recv(self.stop) -> _`: it also resolves, with
`Err(RecvError)`, when the stop sender is dropped without sending, and
the `_` pattern discards that distinction — so on the concrete run in
which the stop channel merely disconnects (`stopSignal false false`),
`start` returns even though no value was ever received on the stop
channel. -/
theorem shutdown_needs_no_stop_value :
    ¬(((start Unit exHandle
          [Action.stopSignal false false]).2.isSome = true) ↔
        ([Action.stopSignal false false] :
          List (Action Nat)).any Action.isStopValue = true) := by
  decide

/-- Claim C3, amended — shutdown protocol: `start` returns (its result
becomes `some`) exactly when the stop-channel receive resolves (with a
value, or with a disconnection error because the stop sender was
dropped) — delivered events, handler failures and event-channel
receive failures never make it return; `Dispatcher::stop` is invoked
exactly once when the stop arm fires and never otherwise; and from any
stopped state no action sequence handles any further event or changes
anything at all. -/
theorem shutdown_protocol {Ev Er : Type} (Er2 : Type)
    (handle : Ev → Except Er (List Ev)) (acts : List (Action Ev)) :
    ((start Er2 handle acts).2.isSome = true ↔
      acts.any Action.isStop = true) ∧
    ((start Er2 handle acts).1.dispatcherStopCalls =
      if acts.any Action.isStop = true then 1 else 0) ∧
    (∀ s2 : WatcherState Ev, s2.status = LoopStatus.stopped →
      ∀ acts2 : List (Action Ev), run handle s2 acts2 = s2) := by
  have h1 := run_status_iff handle (initialState Ev) acts rfl
  have h2 := run_calls handle (initialState Ev) acts rfl
  refine ⟨?_, ?_, fun s2 hs2 acts2 => run_stopped handle s2 acts2 hs2⟩
  · rw [← h1]
    simp only [start]
    cases hst : (run handle (initialState Ev) acts).status <;> simp [hst]
  · simp only [start]
    rw [h2]
    simp [initialState]

/-- Claim C3 witness: a concrete action sequence containing a stop
signal makes `start` return with `Dispatcher::stop` called once. -/
theorem shutdown_protocol_witness :
    (start Unit exHandle
      [Action.dispatch 1, Action.deliverEvent,
       Action.stopSignal true false, Action.deliverEvent]).2.isSome =
      true ∧
    (start Unit exHandle
      [Action.dispatch 1, Action.deliverEvent,
       Action.stopSignal true false,
       Action.deliverEvent]).1.dispatcherStopCalls = 1 := by
  have h := shutdown_protocol Unit exHandle
    [Action.dispatch 1, Action.deliverEvent, Action.stopSignal true false,
     Action.deliverEvent]
  exact ⟨h.1.mpr (by decide), by rw [h.2.1]; decide⟩

/-- Claim C4 — stop failure is best-effort: when the stop arm resolves
while running and `Dispatcher::stop` returned an error, the loop logs
`failed to stop dispatcher` and still breaks (status becomes
`stopped`), after which no action sequence changes the state — shutdown
is never blocked on the Dispatcher stopping cleanly. -/
theorem stop_failure_best_effort {Ev Er : Type}
    (handle : Ev → Except Er (List Ev)) (s : WatcherState Ev)
    (rv : Bool) (hrun : s.status = LoopStatus.running) :
    step handle s (Action.stopSignal rv true) =
      { s with status := LoopStatus.stopped,
               dispatcherStopCalls := s.dispatcherStopCalls + 1,
               log := s.log ++ [LogEntry.stopDispatcherFailed] } ∧
    (step handle s (Action.stopSignal rv true)).status =
      LoopStatus.stopped ∧
    (∀ acts, run handle (step handle s (Action.stopSignal rv true)) acts =
      step handle s (Action.stopSignal rv true)) := by
  have h1 : step handle s (Action.stopSignal rv true) =
      { s with status := LoopStatus.stopped,
               dispatcherStopCalls := s.dispatcherStopCalls + 1,
               log := s.log ++ [LogEntry.stopDispatcherFailed] } := by
    rw [step_stop_running handle s rv true hrun]
    simp
  refine ⟨h1, by rw [h1], ?_⟩
  intro acts
  exact run_stopped handle _ acts (by rw [h1])

/-- Claim C4 witness: a concrete stop with a failing `Dispatcher::stop`
still stops the loop. -/
theorem stop_failure_best_effort_witness :
    step exHandle
      { queue := [], handled := [], log := [], dispatcherStopCalls := 0,
        status := LoopStatus.running } (Action.stopSignal true true) =
      { queue := [], handled := [],
        log := [LogEntry.stopDispatcherFailed], dispatcherStopCalls := 1,
        status := LoopStatus.stopped } :=
  (stop_failure_best_effort exHandle
    { queue := [], handled := [], log := [], dispatcherStopCalls := 0,
      status := LoopStatus.running } true rfl).1

/-- Claim C5 — dispatcher startup failure is fatal only to the
dispatcher's task: when the spawned task's `dispatcher.start` fails,
the error is logged and nothing else of the loop's state changes; the
loop is still running, and every subsequent run behaves observably
(queue, handled sequence, stop calls, status) exactly as it would have
without the failure. -/
theorem dispatcher_start_failure_isolated {Ev Er : Type}
    (handle : Ev → Except Er (List Ev)) (s : WatcherState Ev)
    (hrun : s.status = LoopStatus.running) :
    step handle s Action.dispatcherStartFail =
      { s with log := s.log ++ [LogEntry.startDispatcherFailed] } ∧
    (step handle s Action.dispatcherStartFail).status =
      LoopStatus.running ∧
    (∀ acts,
      observable (run handle (step handle s Action.dispatcherStartFail) acts) =
        observable (run handle s acts)) := by
  have h1 : step handle s Action.dispatcherStartFail =
      { s with log := s.log ++ [LogEntry.startDispatcherFailed] } := by
    simp [step, hrun]
  refine ⟨h1, by rw [h1]; exact hrun, ?_⟩
  intro acts
  rw [h1]
  obtain ⟨l2, hl2⟩ :=
    run_log_frame handle acts s (s.log ++ [LogEntry.startDispatcherFailed])
  rw [hl2]
  rfl

/-- Claim C5 witness: a concrete dispatcher-start failure only logs. -/
theorem dispatcher_start_failure_isolated_witness :
    step exHandle
      { queue := [4], handled := [], log := [], dispatcherStopCalls := 0,
        status := LoopStatus.running } Action.dispatcherStartFail =
      { queue := [4], handled := [],
        log := [LogEntry.startDispatcherFailed], dispatcherStopCalls := 0,
        status := LoopStatus.running } :=
  (dispatcher_start_failure_isolated exHandle
    { queue := [4], handled := [], log := [], dispatcherStopCalls := 0,
      status := LoopStatus.running } rfl).1

/-- Claim C6 — transport failure is non-terminating: when
`recv(events_rx)` resolves with an error while running, the loop logs
one `failed to receive event` entry and changes nothing else; it is
still running, and any subsequent run terminates (reaches `stopped`)
exactly when the stop arm resolves. -/
theorem transport_failure_nonterminating {Ev Er : Type}
    (handle : Ev → Except Er (List Ev)) (s : WatcherState Ev)
    (hrun : s.status = LoopStatus.running) :
    step handle s Action.recvFail =
      { s with log := s.log ++ [LogEntry.receiveEventFailed] } ∧
    (step handle s Action.recvFail).status = LoopStatus.running ∧
    (∀ acts, ((run handle (step handle s Action.recvFail) acts).status =
        LoopStatus.stopped ↔ acts.any Action.isStop = true)) := by
  have h1 : step handle s Action.recvFail =
      { s with log := s.log ++ [LogEntry.receiveEventFailed] } := by
    simp [step, hrun]
  refine ⟨h1, by rw [h1]; exact hrun, ?_⟩
  intro acts
  exact run_status_iff handle _ acts (by rw [h1]; exact hrun)

/-- Claim C6 witness: a concrete receive failure only logs and keeps the
loop running. -/
theorem transport_failure_nonterminating_witness :
    step exHandle
      { queue := [], handled := [], log := [], dispatcherStopCalls := 0,
        status := LoopStatus.running } Action.recvFail =
      { queue := [], handled := [], log := [LogEntry.receiveEventFailed],
        dispatcherStopCalls := 0, status := LoopStatus.running } :=
  (transport_failure_nonterminating exHandle
    { queue := [], handled := [], log := [], dispatcherStopCalls := 0,
      status := LoopStatus.running } rfl).1

/-- Claim C7 — serialized handling: each step of the system invokes
`Handler::handle` for at most one event (the head of the channel, while
running), and within the very same step the whole re-publication of
that invocation's returned events is already complete in the queue — so
the next invocation can only begin after the previous invocation,
including its re-publication, has completed; invocations are totally
ordered, never concurrent. -/
theorem serialized_handling {Ev Er : Type}
    (handle : Ev → Except Er (List Ev)) (s : WatcherState Ev)
    (a : Action Ev) :
    (step handle s a).handled = s.handled ∨
    (∃ e : Ev, s.status = LoopStatus.running ∧
      s.queue.head? = some e ∧
      (step handle s a).handled = s.handled ++ [e] ∧
      (step handle s a).queue = s.queue.tail ++
        (match handle e with
         | Except.ok evs => evs
         | Except.error _ => [])) := by
  obtain ⟨q, hd, lg, c, st⟩ := s
  cases st with
  | stopped => left; rw [step_stopped handle _ a rfl]
  | running =>
      cases a with
      | dispatch e => left; simp [step]
      | dispatcherStartFail => left; simp [step]
      | recvFail => left; simp [step]
      | stopSignal rv b => left; simp [step]
      | deliverEvent =>
          cases q with
          | nil => left; simp [step]
          | cons e rest =>
              right
              refine ⟨e, rfl, rfl, ?_, ?_⟩
              · cases hh : handle e <;> simp [step, hh]
              · cases hh : handle e <;> simp [step, hh]

/-- Claim C8 — `Watcher::start` never surfaces an error: whenever the
loop terminates and `start` returns a value, that value is `Ok(())`;
every failure inside was only logged. -/
theorem start_never_errs {Ev Er Er2 : Type}
    (handle : Ev → Except Er (List Ev)) (acts : List (Action Ev))
    (r : Except Er2 Unit)
    (h : (start Er2 handle acts).2 = some r) : r = Except.ok () := by
  simp only [start] at h
  cases hst : (run handle (initialState Ev) acts).status with
  | running => simp [hst] at h
  | stopped =>
      simp [hst] at h
      exact h.symm

/-- Claim C8 witness: a concrete terminating run returns `Ok(())`. -/
theorem start_never_errs_witness :
    (start Unit exHandle [Action.stopSignal true false]).2 =
      some (Except.ok ()) ∧
    (Except.ok () : Except Unit Unit) = Except.ok () :=
  ⟨rfl, start_never_errs exHandle [Action.stopSignal true false]
    (Except.ok ()) rfl⟩

end Watcher

namespace App

/-- Claim C9 — `App::git_get_global_config`: once the default config is
open, a successful lookup returns `Ok(Some(value))`; a lookup failing
with code `NotFound` returns `Ok(None)`; a lookup failing with any
other code propagates the error as `Err`; and conversely `Ok(None)` is
returned exactly when the lookup failed with `NotFound`. -/
theorem git_get_global_config_spec (od : Except GitError Config)
    (key : String) :
    (∀ config value, od = Except.ok config →
      config.get_string key = Except.ok value →
      git_get_global_config od key = Except.ok (some value)) ∧
    (∀ config e, od = Except.ok config →
      config.get_string key = Except.error e →
      e.code = GitErrorCode.notFound →
      git_get_global_config od key = Except.ok none) ∧
    (∀ config e, od = Except.ok config →
      config.get_string key = Except.error e →
      e.code ≠ GitErrorCode.notFound →
      git_get_global_config od key = Except.error e) ∧
    (git_get_global_config od key = Except.ok none →
      ∃ config e, od = Except.ok config ∧
        config.get_string key = Except.error e ∧
        e.code = GitErrorCode.notFound) := by
  refine ⟨?_, ?_, ?_, ?_⟩
  · intro config value h1 h2
    simp [git_get_global_config, h1, h2]
  · intro config e h1 h2 h3
    simp [git_get_global_config, h1, h2, h3]
  · intro config e h1 h2 h3
    simp [git_get_global_config, h1, h2, h3]
  · intro h
    cases od with
    | error e0 => simp [git_get_global_config] at h
    | ok config =>
        cases hg : config.get_string key with
        | ok v => simp [git_get_global_config, hg] at h
        | error e =>
            by_cases hc : e.code = GitErrorCode.notFound
            · exact ⟨config, e, rfl, hg, hc⟩
            · simp [git_get_global_config, hg, hc] at h

/-- Claim C9 witness: on the concrete config, the present key comes back
as `Ok(Some _)` and an absent key as `Ok(None)`. -/
theorem git_get_global_config_spec_witness :
    git_get_global_config (Except.ok exConfig) "user.name" =
      Except.ok (some "alice") ∧
    git_get_global_config (Except.ok exConfig) "user.email" =
      Except.ok none :=
  ⟨(git_get_global_config_spec (Except.ok exConfig) "user.name").1
      exConfig "alice" rfl (by simp [exConfig]),
   (git_get_global_config_spec (Except.ok exConfig) "user.email").2.1
      exConfig { code := GitErrorCode.notFound } rfl
      (by simp [exConfig]) rfl⟩

/-- Claim C10 — `App::git_set_global_config` returns, on success,
exactly the `value` string it was given. -/
theorem git_set_global_config_returns_value
    (od : Except GitError Config) (key value r : String)
    (h : git_set_global_config od key value = Except.ok r) :
    r = value := by
  cases od with
  | error e => simp [git_set_global_config] at h
  | ok config =>
      cases hs : config.set_str key value with
      | error e => simp [git_set_global_config, hs] at h
      | ok u =>
          simp [git_set_global_config, hs] at h
          exact h.symm

/-- Claim C10 witness: a concrete successful write echoes its input
value. -/
theorem git_set_global_config_returns_value_witness :
    git_set_global_config (Except.ok exConfig) "user.name" "bob" =
      Except.ok "bob" ∧
    ("bob" : String) = "bob" :=
  ⟨rfl, git_set_global_config_returns_value (Except.ok exConfig)
    "user.name" "bob" "bob" rfl⟩

end App
